import Mathlib

/-!
Verification of the NPV calculator in `src/NPV.py` (function `get_npv`).

The Python function is a straight-line numeric pipeline over numpy 1-d arrays.
We embed it shallowly:

* machine floats become exact rationals `ℚ`;
* each numpy array becomes a `List ℚ`;
* elementwise numpy operations between arrays become `bop`, which implements
  numpy's 1-d broadcasting rule: equal lengths combine index-for-index, a
  length-1 array broadcasts against any other length, and any other length
  mismatch raises `ValueError` — modelled as `none`;
* the final Python `zip(net_income, np.arange(0, n_years))` truncates to the
  shorter operand, modelled by `List.zipWith`, which truncates the same way;
* `np.exp` is transcendental, so the model is parametric in a function
  `e : ℚ → ℚ` standing for the exponential.  Statements that depend on
  properties of the exponential take them as hypotheses (positivity,
  monotonicity — true of the real `exp`); concrete evaluations instantiate
  `e` with `expQ`, a computable positive strictly monotone stand-in.

A returned value `some v` models "the Python call returns the float v (as an
exact rational)"; `none` models "the Python call raises an exception".
-/

namespace NPVModel

/-- The 15 keyword parameters of `get_npv`, with the Python default values.
`n_years`, `patent_exclusive_years` and `lead_time_years` are used as array
lengths (`np.arange` / `np.zeros`) and are modelled as naturals. -/
structure Params where
  us_population : ℚ := 335.5
  us_population_growth_rate : ℚ := 0.007
  n_years : ℕ := 30
  get_flu_rate : ℚ := 0.14
  max_penetration : ℚ := 0.5
  patent_exclusive_years : ℕ := 19
  penetration_upon_patent_loss : ℚ := 0.05
  inflection_year : ℚ := 1.5
  hill_coefficient : ℚ := 7
  lead_time_years : ℕ := 6
  rd_cost_scaler : ℚ := 1
  clindev_sga : ℚ := 0.5
  cost_of_revenue : ℚ := 0.49
  cost_per_unit : ℚ := 45
  discount_rate : ℚ := 0.35

/-- Computable stand-in for the exponential function: positive, strictly
monotone, and `expQ 0 = 1`, like the real `exp`.  Used to instantiate the
model's exponential parameter on concrete inputs. -/
def expQ (x : ℚ) : ℚ := if 0 ≤ x then x + 1 else 1 / (1 - x)

/-- Numpy 1-d broadcasting for a binary elementwise operation: equal lengths
combine pointwise, a length-1 operand is broadcast, any other length mismatch
is a `ValueError` (`none`). -/
def bop (f : ℚ → ℚ → ℚ) (xs ys : List ℚ) : Option (List ℚ) :=
  if xs.length = ys.length then some (List.zipWith f xs ys)
  else if xs.length = 1 then some (ys.map (fun y => f (xs.headD 0) y))
  else if ys.length = 1 then some (xs.map (fun x => f x (ys.headD 0)))
  else none

/-- Source: `population = us_population * np.array([(1 + us_population_growth_rate) ** i
for i in np.arange(0, n_years)])` (line 47). -/
def population (p : Params) : List ℚ :=
  (List.range p.n_years).map
    (fun i => p.us_population * (1 + p.us_population_growth_rate) ^ i)

/-- Source: `n_flu = get_flu_rate * population` (line 48). -/
def n_flu (p : Params) : List ℚ :=
  (population p).map (fun x => p.get_flu_rate * x)

/-- Source: `pre_approval = np.zeros(lead_time_years)` (line 51). -/
def pre_approval (p : Params) : List ℚ := List.replicate p.lead_time_years 0

/-- Source: `patent_effective = np.array([max_penetration / (1 + np.exp(-1 *
hill_coefficient * (i - inflection_year))) for i in
np.arange(0, patent_exclusive_years)])` (line 52). -/
def patent_effective (e : ℚ → ℚ) (p : Params) : List ℚ :=
  (List.range p.patent_exclusive_years).map
    (fun (i : ℕ) => p.max_penetration /
      (1 + e (-1 * p.hill_coefficient * ((i : ℚ) - p.inflection_year))))

/-- Source: `post_patent = penetration_upon_patent_loss * np.ones(5)` (line 53). -/
def post_patent (p : Params) : List ℚ :=
  List.replicate 5 p.penetration_upon_patent_loss

/-- Source: `market_penetration = np.concatenate([pre_approval, patent_effective,
post_patent])` (line 54). -/
def market_penetration (e : ℚ → ℚ) (p : Params) : List ℚ :=
  pre_approval p ++ patent_effective e p ++ post_patent p

/-- Source: `n_patients_treated = market_penetration * n_flu` (line 57), an
elementwise numpy product subject to broadcasting. -/
def n_patients_treated (e : ℚ → ℚ) (p : Params) : Option (List ℚ) :=
  bop (· * ·) (market_penetration e p) (n_flu p)

/-- Source: `rd_costs_baseline = np.array([3.515, 3.789, 8.2, 10.8, 23.796, 2.2])`
(line 60). -/
def rd_costs_baseline : List ℚ := [3.515, 3.789, 8.2, 10.8, 23.796, 2.2]

/-- Source: `rd_costs = rd_cost_scaler * rd_costs_baseline` (line 61). -/
def rd_costs (p : Params) : List ℚ :=
  rd_costs_baseline.map (fun c => p.rd_cost_scaler * c)

/-- Source: `dev_costs = clindev_sga + rd_costs` (line 62). -/
def dev_costs (p : Params) : List ℚ :=
  (rd_costs p).map (fun c => p.clindev_sga + c)

/-- Source: `nr_costs = np.concatenate([dev_costs, np.zeros(24)])` (line 63): the
non-revenue cost vector always has exactly 30 entries. -/
def nr_costs (p : Params) : List ℚ := dev_costs p ++ List.replicate 24 0

/-- Source: `revenue = n_patients_treated * cost_per_unit` (line 66),
scalar multiplication of an array. -/
def revenue (e : ℚ → ℚ) (p : Params) : Option (List ℚ) :=
  (n_patients_treated e p).map (fun l => l.map (fun x => x * p.cost_per_unit))

/-- Source: `r_costs = revenue * cost_of_revenue` (line 69). -/
def r_costs (e : ℚ → ℚ) (p : Params) : Option (List ℚ) :=
  (revenue e p).map (fun l => l.map (fun x => x * p.cost_of_revenue))

/-- Source: `costs = nr_costs + r_costs` (line 72), elementwise numpy sum subject to
broadcasting. -/
def costs (e : ℚ → ℚ) (p : Params) : Option (List ℚ) :=
  (r_costs e p).bind (fun rc => bop (· + ·) (nr_costs p) rc)

/-- Source: `net_income = revenue - costs` (line 75). -/
def net_income (e : ℚ → ℚ) (p : Params) : Option (List ℚ) :=
  (revenue e p).bind (fun rev => (costs e p).bind (fun c => bop (· - ·) rev c))

/-- Source: `dcfs = np.array([x / ((1 + discount_rate) ** t) for x, t in
zip(net_income, np.arange(0, n_years))])` (line 78): Python `zip` silently
truncates to the shorter operand, exactly like `List.zipWith`. -/
def dcfs (e : ℚ → ℚ) (p : Params) : Option (List ℚ) :=
  (net_income e p).map
    (fun ni => List.zipWith (fun x t => x / (1 + p.discount_rate) ^ t) ni
      (List.range p.n_years))

/-- Source: `return dcfs.sum()` (line 80): the whole function `get_npv`. -/
def get_npv (e : ℚ → ℚ) (p : Params) : Option ℚ :=
  (dcfs e p).map List.sum

/-- Spec-side refinement definition: the market-penetration value of year
index `i` described by the spec's three regimes (pre-approval zeros, Fisher–Pry
logistic values, constant post-patent penetration), as a function of the
year index.  Compared against the list `market_penetration` built from the
source. -/
def penSpec (e : ℚ → ℚ) (p : Params) (i : ℕ) : ℚ :=
  if i < p.lead_time_years then 0
  else if i < p.lead_time_years + p.patent_exclusive_years then
    p.max_penetration /
      (1 + e (-1 * p.hill_coefficient *
        (((i - p.lead_time_years : ℕ) : ℚ) - p.inflection_year)))
  else p.penetration_upon_patent_loss

/-- Spec-side refinement definition: the non-revenue cost of year `i` — the
6-entry baseline scaled by `rd_cost_scaler` with `clindev_sga` added to each
entry, followed by zeros.  Compared against `nr_costs` built from the source. -/
def nrSpec (p : Params) (i : ℕ) : ℚ :=
  if i < 6 then p.clindev_sga + p.rd_cost_scaler * rd_costs_baseline.getD i 0
  else 0

/-- The flu-incidence of year `i`: `get_flu_rate * us_population *
(1 + us_population_growth_rate) ^ i`, associated exactly as the code
produces it. -/
def fluSpec (p : Params) (i : ℕ) : ℚ :=
  p.get_flu_rate * (p.us_population * (1 + p.us_population_growth_rate) ^ i)

/-- The net income of year `i` on the non-truncating path, associated exactly
as the pipeline produces it: `revenue - (nr_costs + revenue * cost_of_revenue)`
with `revenue = penetration * flu_incidence * cost_per_unit`. -/
def netSpec (e : ℚ → ℚ) (p : Params) (i : ℕ) : ℚ :=
  penSpec e p i * fluSpec p i * p.cost_per_unit -
    (nrSpec p i + penSpec e p i * fluSpec p i * p.cost_per_unit * p.cost_of_revenue)

/-- All parameters at the Python defaults. -/
def Pdef : Params := {}

/-- All parameters at the Python defaults except `n_years = 1`. -/
def Pdef1 : Params := { Pdef with n_years := 1 }

/-- A simple well-formed parameter set (lengths 6 + 19 + 5 = 30 = n_years)
with rates chosen so every value in the pipeline is a small rational:
unit population and flu rate, no growth, zero discount rate, zero
`max_penetration`, full post-patent penetration, unit price, and non-revenue
costs equal to 1 in each of the first six years. -/
def P0 : Params :=
  { us_population := 1, us_population_growth_rate := 0, n_years := 30,
    get_flu_rate := 1, max_penetration := 0, patent_exclusive_years := 19,
    penetration_upon_patent_loss := 1, inflection_year := 0,
    hill_coefficient := 0, lead_time_years := 6, rd_cost_scaler := 0,
    clindev_sga := 1, cost_of_revenue := 0, cost_per_unit := 1,
    discount_rate := 0 }

/-- Variant of `P0` with zero population: no revenue in any year. -/
def PA : Params := { P0 with us_population := 0 }

/-- Variant of `PA` with a different unit price: only `cost_per_unit` changes. -/
def PB : Params := { PA with cost_per_unit := 2 }

/-- Variant of `P0` with zero population and unit R&D scaler: pure-cost scenario. -/
def PC7 : Params := { P0 with us_population := 0, rd_cost_scaler := 1 }

/-- Parameter set whose year lengths are consistent with each other
(0 + 0 + 5 = 5 = n_years) but not with the fixed 30-entry cost vector. -/
def Pc2 : Params := { P0 with
    lead_time_years := 0
    patent_exclusive_years := 0
    n_years := 5 }

/-- Parameter set with a length-5 penetration curve against a 30-year
horizon. -/
def Pc3 : Params := { P0 with lead_time_years := 0, patent_exclusive_years := 0 }

/-- Parameter set with `lead_time_years = 1` and an empty patent-exclusive
regime. -/
def P4c : Params :=
  { us_population := 1, us_population_growth_rate := 0, n_years := 6,
    get_flu_rate := 1, max_penetration := 1, patent_exclusive_years := 0,
    penetration_upon_patent_loss := 0, inflection_year := 0,
    hill_coefficient := 0, lead_time_years := 1, rd_cost_scaler := 0,
    clindev_sga := 0, cost_of_revenue := 0, cost_per_unit := 1,
    discount_rate := 0 }

/-- Variant of `P0` with `max_penetration = 1`: a parameter set with a nondegenerate
S-curve. -/
def P4w : Params := { P0 with max_penetration := 1 }

/-- Variant of `P0` with a nondegenerate S-curve and positive steepness. -/
def P9 : Params := { P0 with
    max_penetration := 1
    hill_coefficient := 1 }

/-- Variant of `P0` with both `max_penetration` and `penetration_upon_patent_loss`
zero: no revenue in any year. -/
def P5w : Params := { P0 with penetration_upon_patent_loss := 0 }

/-- Variant of `P0` with doubled post-patent revenue and an initial discount rate of 1:
early years lose money, late years earn it. -/
def Pc8 : Params := { P0 with penetration_upon_patent_loss := 2, discount_rate := 1 }

/-- Variant of `P0` with no non-revenue costs at all. -/
def Pw8 : Params := { P0 with clindev_sga := 0 }

/-- Variant of `P0` with `n_years = 1`. -/
def Pw3 : Params := { P0 with n_years := 1 }

/-! ### Properties of the exponential stand-in -/

lemma expQ_pos : ∀ x : ℚ, 0 < expQ x := by
  intro x
  unfold expQ
  split
  · linarith
  · have h1 : (0 : ℚ) < 1 - x := by linarith [not_le.mp (by assumption)]
    positivity

lemma expQ_mono : Monotone expQ := by
  intro a b hab
  unfold expQ
  split
  · split
    · linarith
    · exact absurd (le_trans (by assumption) hab) (by assumption)
  · split
    · have ha : (1 : ℚ) < 1 - a := by linarith [not_le.mp (by assumption)]
      have : 1 / (1 - a) < 1 := by
        rw [div_lt_one (by linarith)]
        exact ha
      linarith
    · have ha : (0 : ℚ) < 1 - a := by linarith [not_le.mp (by assumption)]
      have hb : (0 : ℚ) < 1 - b := by linarith [not_le.mp (by assumption)]
      rw [div_le_div_iff₀ ha hb]
      linarith

/-! ### Generic list helpers -/

lemma zipWith_map_same (k : ℚ → ℚ → ℚ) (f g : ℕ → ℚ) :
    ∀ l : List ℕ, List.zipWith k (l.map f) (l.map g) = l.map (fun x => k (f x) (g x))
  | [] => rfl
  | a :: t => by
      simp only [List.map_cons, List.zipWith_cons_cons]
      rw [zipWith_map_same k f g t]

lemma zipWith_map_left (k : ℚ → ℕ → ℚ) (f : ℕ → ℚ) :
    ∀ l : List ℕ, List.zipWith k (l.map f) l = l.map (fun x => k (f x) x)
  | [] => rfl
  | a :: t => by
      simp only [List.map_cons, List.zipWith_cons_cons]
      rw [zipWith_map_left k f t]

lemma sum_range_map (f : ℕ → ℚ) :
    ∀ n : ℕ, ((List.range n).map f).sum = ∑ i in Finset.range n, f i
  | 0 => rfl
  | n + 1 => by
      rw [List.range_succ, List.map_append, List.sum_append, Finset.sum_range_succ,
        sum_range_map f n]
      simp

lemma getD_map_range :
    ∀ (n : ℕ) (f : ℕ → ℚ) (i : ℕ), i < n → ((List.range n).map f).getD i 0 = f i
  | 0, _, i, h => absurd h (Nat.not_lt_zero i)
  | n + 1, f, 0, _ => by rw [List.range_succ_eq_map]; rfl
  | n + 1, f, i + 1, h => by
      rw [List.range_succ_eq_map, List.map_cons, List.getD_cons_succ, List.map_map]
      exact getD_map_range n (f ∘ Nat.succ) i (Nat.lt_of_succ_lt_succ h)

lemma getD_zero_map (g : ℚ → ℚ) :
    ∀ l : List ℚ, l ≠ [] → (l.map g).getD 0 0 = g (l.getD 0 0)
  | [], h => absurd rfl h
  | _ :: _, _ => rfl

lemma getD_zero_zipWith (k : ℚ → ℚ → ℚ) :
    ∀ xs ys : List ℚ, xs ≠ [] → ys ≠ [] →
      (List.zipWith k xs ys).getD 0 0 = k (xs.getD 0 0) (ys.getD 0 0)
  | [], _, h, _ => absurd rfl h
  | _ :: _, [], _, h => absurd rfl h
  | _ :: _, _ :: _, _, _ => rfl

lemma zipWith_singleton (k : ℚ → ℕ → ℚ) :
    ∀ (l : List ℚ) (b : ℕ), l ≠ [] → List.zipWith k l [b] = [k (l.getD 0 0) b]
  | [], _, h => absurd rfl h
  | _ :: _, _, _ => by simp

lemma ne_nil_of_length_30 (l : List ℚ) (h : l.length = 30) : l ≠ [] := by
  intro he
  rw [he] at h
  simp at h

/-! ### Shapes of the pipeline stages -/

lemma length_market_penetration (e : ℚ → ℚ) (p : Params) :
    (market_penetration e p).length =
      p.lead_time_years + p.patent_exclusive_years + 5 := by
  unfold market_penetration pre_approval patent_effective post_patent
  rw [List.length_append, List.length_append, List.length_replicate,
    List.length_map, List.length_range, List.length_replicate]

lemma length_n_flu (p : Params) : (n_flu p).length = p.n_years := by
  simp [n_flu, population]

lemma bop_same (f : ℚ → ℚ → ℚ) (xs ys : List ℚ) (h : xs.length = ys.length) :
    bop f xs ys = some (List.zipWith f xs ys) := by
  unfold bop
  rw [if_pos h]

/-! ### The pipeline stages in indexed normal form -/

lemma n_flu_eq (p : Params) : n_flu p = (List.range p.n_years).map (fluSpec p) := by
  unfold n_flu population
  rw [List.map_map]
  rfl

lemma nr_costs_eq (p : Params) : nr_costs p = (List.range 30).map (nrSpec p) := by
  rfl

lemma market_penetration_eq (e : ℚ → ℚ) (p : Params) :
    market_penetration e p =
      (List.range (p.lead_time_years + p.patent_exclusive_years + 5)).map
        (penSpec e p) := by
  unfold market_penetration pre_approval patent_effective post_patent
  rw [List.range_add, List.range_add, List.map_append, List.map_append,
    List.map_map, List.map_map]
  have h1 : ∀ i ∈ List.range p.lead_time_years, penSpec e p i = 0 := by
    intro i hi
    unfold penSpec
    rw [if_pos (List.mem_range.mp hi)]
  have h2 : ∀ j ∈ List.range p.patent_exclusive_years,
      (penSpec e p ∘ (p.lead_time_years + ·)) j =
        p.max_penetration /
          (1 + e (-1 * p.hill_coefficient * ((j : ℚ) - p.inflection_year))) := by
    intro j hj
    have hj' := List.mem_range.mp hj
    show penSpec e p (p.lead_time_years + j) = _
    unfold penSpec
    rw [if_neg (by omega), if_pos (by omega), Nat.add_sub_cancel_left]
  have h3 : ∀ k ∈ List.range 5,
      (penSpec e p ∘ (p.lead_time_years + p.patent_exclusive_years + ·)) k =
        p.penetration_upon_patent_loss := by
    intro k _
    show penSpec e p (p.lead_time_years + p.patent_exclusive_years + k) = _
    unfold penSpec
    rw [if_neg (by omega), if_neg (by omega)]
  rw [List.map_congr_left h1, List.map_congr_left h2, List.map_congr_left h3,
    List.map_const', List.map_const', List.length_range, List.length_range]

lemma n_patients_treated_eq (e : ℚ → ℚ) (p : Params)
    (hL : p.lead_time_years + p.patent_exclusive_years + 5 = 30)
    (hn : p.n_years = 30) :
    n_patients_treated e p =
      some ((List.range 30).map (fun i => penSpec e p i * fluSpec p i)) := by
  unfold n_patients_treated
  rw [market_penetration_eq, n_flu_eq, hL, hn, bop_same _ _ _ (by simp),
    zipWith_map_same]

lemma revenue_eq (e : ℚ → ℚ) (p : Params)
    (hL : p.lead_time_years + p.patent_exclusive_years + 5 = 30)
    (hn : p.n_years = 30) :
    revenue e p =
      some ((List.range 30).map
        (fun i => penSpec e p i * fluSpec p i * p.cost_per_unit)) := by
  unfold revenue
  rw [n_patients_treated_eq e p hL hn]
  simp only [Option.map_some', List.map_map]
  rfl

lemma costs_eq (e : ℚ → ℚ) (p : Params)
    (hL : p.lead_time_years + p.patent_exclusive_years + 5 = 30)
    (hn : p.n_years = 30) :
    costs e p =
      some ((List.range 30).map
        (fun i => nrSpec p i +
          penSpec e p i * fluSpec p i * p.cost_per_unit * p.cost_of_revenue)) := by
  unfold costs r_costs
  rw [revenue_eq e p hL hn]
  simp only [Option.map_some', Option.some_bind, List.map_map]
  rw [nr_costs_eq, bop_same _ _ _ (by simp), zipWith_map_same]
  rfl

lemma net_income_eq (e : ℚ → ℚ) (p : Params)
    (hL : p.lead_time_years + p.patent_exclusive_years + 5 = 30)
    (hn : p.n_years = 30) :
    net_income e p = some ((List.range 30).map (netSpec e p)) := by
  unfold net_income
  rw [revenue_eq e p hL hn, costs_eq e p hL hn]
  simp only [Option.some_bind]
  rw [bop_same _ _ _ (by simp), zipWith_map_same]
  rfl

lemma npv_formula (e : ℚ → ℚ) (p : Params)
    (hL : p.lead_time_years + p.patent_exclusive_years + 5 = 30)
    (hn : p.n_years = 30) :
    get_npv e p =
      some (∑ i in Finset.range 30,
        netSpec e p i / (1 + p.discount_rate) ^ i) := by
  unfold get_npv dcfs
  rw [net_income_eq e p hL hn]
  show some (List.zipWith _ _ _).sum = _
  rw [hn, zipWith_map_left, sum_range_map]

/-! ### The truncating path: a one-year horizon against 30-entry arrays -/

lemma bop_right_single (f : ℚ → ℚ → ℚ) (xs : List ℚ) (b : ℚ)
    (h : xs.length ≠ 1) : bop f xs [b] = some (xs.map (fun x => f x b)) := by
  unfold bop
  rw [if_neg (show xs.length ≠ [b].length from h), if_neg h]
  rfl

lemma npv_one (e : ℚ → ℚ) (p : Params)
    (hL : p.lead_time_years + p.patent_exclusive_years + 5 = 30)
    (hn : p.n_years = 1) :
    get_npv e p =
      some ((market_penetration e p).getD 0 0 * fluSpec p 0 * p.cost_per_unit -
        (nrSpec p 0 +
          (market_penetration e p).getD 0 0 * fluSpec p 0 * p.cost_per_unit *
            p.cost_of_revenue)) := by
  have hpenlen : (market_penetration e p).length = 30 := by
    rw [length_market_penetration]
    omega
  have hpen_ne : market_penetration e p ≠ [] := ne_nil_of_length_30 _ hpenlen
  have hnrlen : (nr_costs p).length = 30 := rfl
  have h1 : n_flu p = [fluSpec p 0] := by
    rw [n_flu_eq, hn]
    rfl
  have h2 : n_patients_treated e p =
      some ((market_penetration e p).map (fun x => x * fluSpec p 0)) := by
    unfold n_patients_treated
    rw [h1, bop_right_single _ _ _ (by rw [hpenlen]; omega)]
  have h3 : revenue e p =
      some ((market_penetration e p).map
        (fun x => x * fluSpec p 0 * p.cost_per_unit)) := by
    unfold revenue
    rw [h2]
    simp only [Option.map_some', List.map_map]
    rfl
  have h4 : costs e p =
      some (List.zipWith (· + ·) (nr_costs p)
        ((market_penetration e p).map
          (fun x => x * fluSpec p 0 * p.cost_per_unit * p.cost_of_revenue))) := by
    unfold costs r_costs
    rw [h3]
    simp only [Option.map_some', Option.some_bind, List.map_map]
    rw [bop_same _ _ _ (by rw [hnrlen, List.length_map, hpenlen])]
    rfl
  have hBlen : (List.zipWith (· + ·) (nr_costs p)
      ((market_penetration e p).map
        (fun x => x * fluSpec p 0 * p.cost_per_unit * p.cost_of_revenue))).length
        = 30 := by
    rw [List.length_zipWith, hnrlen, List.length_map, hpenlen]
    simp
  have h5 : net_income e p =
      some (List.zipWith (· - ·)
        ((market_penetration e p).map
          (fun x => x * fluSpec p 0 * p.cost_per_unit))
        (List.zipWith (· + ·) (nr_costs p)
          ((market_penetration e p).map
            (fun x => x * fluSpec p 0 * p.cost_per_unit * p.cost_of_revenue)))) := by
    unfold net_income
    rw [h3, h4]
    simp only [Option.some_bind]
    exact bop_same _ _ _ (by rw [List.length_map, hpenlen, hBlen])
  have hAne : ((market_penetration e p).map
      (fun x => x * fluSpec p 0 * p.cost_per_unit)) ≠ [] := by
    intro hc
    exact hpen_ne (List.map_eq_nil_iff.mp hc)
  have hrcne : ((market_penetration e p).map
      (fun x => x * fluSpec p 0 * p.cost_per_unit * p.cost_of_revenue)) ≠ [] := by
    intro hc
    exact hpen_ne (List.map_eq_nil_iff.mp hc)
  have hBne : (List.zipWith (· + ·) (nr_costs p)
      ((market_penetration e p).map
        (fun x => x * fluSpec p 0 * p.cost_per_unit * p.cost_of_revenue))) ≠ [] :=
    ne_nil_of_length_30 _ hBlen
  have hNne : (List.zipWith (· - ·)
      ((market_penetration e p).map
        (fun x => x * fluSpec p 0 * p.cost_per_unit))
      (List.zipWith (· + ·) (nr_costs p)
        ((market_penetration e p).map
          (fun x => x * fluSpec p 0 * p.cost_per_unit * p.cost_of_revenue)))) ≠ [] := by
    apply ne_nil_of_length_30
    rw [List.length_zipWith, List.length_map, hpenlen, hBlen]
    simp
  have hnr0 : (nr_costs p).getD 0 0 = nrSpec p 0 := rfl
  unfold get_npv dcfs
  rw [h5]
  simp only [Option.map_some']
  rw [hn, show List.range 1 = [0] from rfl, zipWith_singleton _ _ _ hNne,
    getD_zero_zipWith _ _ _ hAne hBne, getD_zero_zipWith _ _ _
      (ne_nil_of_length_30 _ hnrlen) hrcne,
    getD_zero_map _ _ hpen_ne, getD_zero_map _ _ hpen_ne, hnr0]
  simp

/-! ### Concrete evaluations -/

lemma ev_P0 : get_npv expQ P0 = some (-1) := by
  rw [npv_formula expQ P0 (by decide) (by decide)]
  congr 1
  simp only [Finset.sum_range_succ, Finset.sum_range_zero]
  norm_num [netSpec, nrSpec, penSpec, fluSpec, expQ, rd_costs_baseline, P0]

lemma ev_P0_cpu2 : get_npv expQ { P0 with cost_per_unit := 2 } = some 4 := by
  rw [npv_formula expQ { P0 with cost_per_unit := 2 } (by decide) (by decide)]
  congr 1
  simp only [Finset.sum_range_succ, Finset.sum_range_zero]
  norm_num [netSpec, nrSpec, penSpec, fluSpec, expQ, rd_costs_baseline, P0]

lemma ev_P0_patsum :
    (∑ i in Finset.range 30,
      penSpec expQ P0 i * fluSpec P0 i / (1 + P0.discount_rate) ^ i) = 5 := by
  simp only [Finset.sum_range_succ, Finset.sum_range_zero]
  norm_num [penSpec, fluSpec, expQ, P0]

lemma ev_PA : get_npv expQ PA = some (-6) := by
  rw [npv_formula expQ PA (by decide) (by decide)]
  congr 1
  simp only [Finset.sum_range_succ, Finset.sum_range_zero]
  norm_num [netSpec, nrSpec, penSpec, fluSpec, expQ, rd_costs_baseline, PA, P0]

lemma ev_PB : get_npv expQ PB = some (-6) := by
  rw [npv_formula expQ PB (by decide) (by decide)]
  congr 1
  simp only [Finset.sum_range_succ, Finset.sum_range_zero]
  norm_num [netSpec, nrSpec, penSpec, fluSpec, expQ, rd_costs_baseline, PB, PA, P0]

lemma ev_PC7 : get_npv expQ PC7 = some (-(583 / 10)) := by
  rw [npv_formula expQ PC7 (by decide) (by decide)]
  congr 1
  simp only [Finset.sum_range_succ, Finset.sum_range_zero]
  norm_num [netSpec, nrSpec, penSpec, fluSpec, expQ, rd_costs_baseline, PC7, P0]

lemma ev_PC7d :
    get_npv expQ { PC7 with rd_cost_scaler := 2 * PC7.rd_cost_scaler } =
      some (-(553 / 5)) := by
  rw [npv_formula expQ { PC7 with rd_cost_scaler := 2 * PC7.rd_cost_scaler }
    (by decide) (by decide)]
  congr 1
  simp only [Finset.sum_range_succ, Finset.sum_range_zero]
  norm_num [netSpec, nrSpec, penSpec, fluSpec, expQ, rd_costs_baseline, PC7, P0]

lemma ev_PC7_nrpv :
    (∑ i in Finset.range 30,
      (nr_costs PC7).getD i 0 / (1 + PC7.discount_rate) ^ i) = 583 / 10 := by
  simp only [Finset.sum_range_succ, Finset.sum_range_zero]
  norm_num [nr_costs, dev_costs, rd_costs, rd_costs_baseline, PC7, P0]

lemma ev_Pc8 : get_npv expQ Pc8 = some (-(528482273 / 268435456)) := by
  rw [npv_formula expQ Pc8 (by decide) (by decide)]
  congr 1
  simp only [Finset.sum_range_succ, Finset.sum_range_zero]
  norm_num [netSpec, nrSpec, penSpec, fluSpec, expQ, rd_costs_baseline, Pc8, P0]

lemma ev_Pc8_d3 :
    get_npv expQ { Pc8 with discount_rate := 3 } =
      some (-(192106671605022379 / 144115188075855872)) := by
  rw [npv_formula expQ { Pc8 with discount_rate := 3 } (by decide) (by decide)]
  congr 1
  simp only [Finset.sum_range_succ, Finset.sum_range_zero]
  norm_num [netSpec, nrSpec, penSpec, fluSpec, expQ, rd_costs_baseline, Pc8, P0]

lemma ev_Pc8_icosum : (0 : ℚ) < ∑ i in Finset.Ico 1 30, netSpec expQ Pc8 i := by
  rw [Finset.sum_Ico_eq_sum_range]
  simp only [Finset.sum_range_succ, Finset.sum_range_zero]
  norm_num [netSpec, nrSpec, penSpec, fluSpec, expQ, rd_costs_baseline, Pc8, P0]

lemma ev_Pw8 : get_npv expQ Pw8 = some 5 := by
  rw [npv_formula expQ Pw8 (by decide) (by decide)]
  congr 1
  simp only [Finset.sum_range_succ, Finset.sum_range_zero]
  norm_num [netSpec, nrSpec, penSpec, fluSpec, expQ, rd_costs_baseline, Pw8, P0]

lemma ev_Pw8_d1 :
    get_npv expQ { Pw8 with discount_rate := 1 } =
      some (31 / 536870912) := by
  rw [npv_formula expQ { Pw8 with discount_rate := 1 } (by decide) (by decide)]
  congr 1
  simp only [Finset.sum_range_succ, Finset.sum_range_zero]
  norm_num [netSpec, nrSpec, penSpec, fluSpec, expQ, rd_costs_baseline, Pw8, P0]

lemma netSpec_Pw8_eq_penSpec (i : ℕ) : netSpec expQ Pw8 i = penSpec expQ Pw8 i := by
  unfold netSpec nrSpec fluSpec
  norm_num [Pw8, P0]

lemma penSpec_Pw8_nonneg (i : ℕ) : 0 ≤ penSpec expQ Pw8 i := by
  unfold penSpec
  split_ifs <;> norm_num [Pw8, P0]

/-! ### Claims -/

/-- Claim C1: for every parameter set with `lead_time_years +
patent_exclusive_years + 5 = n_years = 30`, `get_npv` returns exactly the sum
over `i = 0 .. n_years - 1` of `(revenue_i * (1 - cost_of_revenue) -
nr_cost_i) / (1 + discount_rate)^i`, where `revenue_i = penetration_i *
get_flu_rate * us_population * (1 + us_population_growth_rate)^i *
cost_per_unit`, the penetration curve `penSpec` is the three-regime piecewise
curve and `nrSpec` the 6-entry baseline cost vector scaled by
`rd_cost_scaler` with `clindev_sga` added, followed by 24 zeros. -/
theorem C1_npv_closed_form (e : ℚ → ℚ) (p : Params)
    (h1 : p.lead_time_years + p.patent_exclusive_years + 5 = p.n_years)
    (h2 : p.n_years = 30) :
    get_npv e p =
      some (∑ i in Finset.range p.n_years,
        (penSpec e p i * p.get_flu_rate * p.us_population *
            (1 + p.us_population_growth_rate) ^ i * p.cost_per_unit *
            (1 - p.cost_of_revenue) - nrSpec p i) /
          (1 + p.discount_rate) ^ i) := by
  rw [npv_formula e p (by omega) h2, h2]
  congr 1
  apply Finset.sum_congr rfl
  intro i _
  unfold netSpec fluSpec
  ring

/-- Witness for C1 at the concrete parameter set `P0`. -/
theorem C1_witness :
    P0.lead_time_years + P0.patent_exclusive_years + 5 = P0.n_years ∧
    P0.n_years = 30 ∧
    get_npv expQ P0 =
      some (∑ i in Finset.range P0.n_years,
        (penSpec expQ P0 i * P0.get_flu_rate * P0.us_population *
            (1 + P0.us_population_growth_rate) ^ i * P0.cost_per_unit *
            (1 - P0.cost_of_revenue) - nrSpec P0 i) /
          (1 + P0.discount_rate) ^ i) :=
  ⟨by decide, by decide, C1_npv_closed_form expQ P0 (by decide) (by decide)⟩

/-- Claim C2 (amended): for parameter sets with `lead_time_years +
patent_exclusive_years + 5 = n_years` and `discount_rate > -1`, `get_npv`
returns a value without raising **provided the sum also equals 30** (the
length of the hardcoded cost vector); the original claim, which allowed the
sum to differ from 30, is refuted by the counterexample theorem below. -/
theorem C2_returns_value (e : ℚ → ℚ) (p : Params)
    (h1 : p.lead_time_years + p.patent_exclusive_years + 5 = p.n_years)
    (h2 : p.n_years = 30) (h3 : -1 < p.discount_rate) :
    (get_npv e p).isSome := by
  rw [npv_formula e p (by omega) h2]
  rfl

/-- Witness for the amended C2 at the concrete parameter set `P0`. -/
theorem C2_witness :
    (P0.lead_time_years + P0.patent_exclusive_years + 5 = P0.n_years) ∧
    (-1 < P0.discount_rate) ∧ (get_npv expQ P0).isSome :=
  ⟨by decide, by decide, C2_returns_value expQ P0 (by decide) (by decide) (by decide)⟩

/-- Counterexample to C2 as stated: `Pc2` has `lead_time_years +
patent_exclusive_years + 5 = n_years = 5 ≠ 30` and sensible rates, yet the
30-entry cost vector cannot be added to the 5-entry revenue array — numpy
raises a `ValueError` (modelled as `none`) instead of returning a float. -/
theorem C2_counterexample :
    Pc2.lead_time_years + Pc2.patent_exclusive_years + 5 = Pc2.n_years ∧
    -1 < Pc2.discount_rate ∧ get_npv expQ Pc2 = none := by decide

/-- Claim C3 (amended): `get_npv` raises no exception and returns a value
provided the array shapes are broadcast-compatible: `lead_time_years +
patent_exclusive_years + 5 = 30` and `n_years = 30` (all shapes agree) or
`n_years = 1` (the length-1 incidence array broadcasts); the original claim,
which asserted this for every numeric input, is refuted by the
counterexample theorem below. -/
theorem C3_no_crash_on_aligned_shapes (e : ℚ → ℚ) (p : Params)
    (hL : p.lead_time_years + p.patent_exclusive_years + 5 = 30)
    (hn : p.n_years = 30 ∨ p.n_years = 1) :
    (get_npv e p).isSome := by
  rcases hn with hn | hn
  · rw [npv_formula e p hL hn]
    rfl
  · rw [npv_one e p hL hn]
    rfl

/-- Witness for the amended C3 on the broadcasting path `n_years = 1`. -/
theorem C3_witness :
    (Pw3.lead_time_years + Pw3.patent_exclusive_years + 5 = 30) ∧
    (get_npv expQ Pw3).isSome :=
  ⟨by decide, C3_no_crash_on_aligned_shapes expQ Pw3 (by decide) (Or.inr (by decide))⟩

/-- Counterexample to C3 as stated: at `Pc3` (a numeric input with
`lead_time_years = patent_exclusive_years = 0`, `n_years = 30`) the 5-entry
penetration array cannot be multiplied elementwise with the 30-entry
incidence array, so `get_npv` raises a `ValueError` (modelled as `none`)
instead of returning a float. -/
theorem C3_counterexample : get_npv expQ Pc3 = none := by decide

/-- Claim C4 (amended): the regime-boundary values of the penetration curve
hold **provided the patent-exclusive regime is nonempty**
(`patent_exclusive_years ≥ 1`); with an empty patent regime the entry at
index `lead_time_years` is the post-patent constant instead
(see the counterexample theorem below).  Under `lead_time_years ≥ 1` and
`patent_exclusive_years ≥ 1`: the entry at `lead_time_years - 1` is `0`, the
entry at `lead_time_years` is
`max_penetration / (1 + exp(hill_coefficient * inflection_year))`, and the
entry at `lead_time_years + patent_exclusive_years` is exactly
`penetration_upon_patent_loss`. -/
theorem C4_regime_boundaries (e : ℚ → ℚ) (p : Params)
    (hlead : 1 ≤ p.lead_time_years) (hpat : 1 ≤ p.patent_exclusive_years)
    (hL : p.lead_time_years + p.patent_exclusive_years + 5 = p.n_years) :
    (market_penetration e p).getD (p.lead_time_years - 1) 0 = 0 ∧
    (market_penetration e p).getD p.lead_time_years 0 =
      p.max_penetration / (1 + e (p.hill_coefficient * p.inflection_year)) ∧
    (market_penetration e p).getD
        (p.lead_time_years + p.patent_exclusive_years) 0 =
      p.penetration_upon_patent_loss := by
  rw [market_penetration_eq]
  refine ⟨?_, ?_, ?_⟩
  · rw [getD_map_range _ _ _ (by omega)]
    unfold penSpec
    rw [if_pos (by omega)]
  · rw [getD_map_range _ _ _ (by omega)]
    unfold penSpec
    rw [if_neg (by omega), if_pos (by omega), Nat.sub_self]
    have harg : -1 * p.hill_coefficient * (((0 : ℕ) : ℚ) - p.inflection_year) =
        p.hill_coefficient * p.inflection_year := by
      push_cast
      ring
    rw [harg]
  · rw [getD_map_range _ _ _ (by omega)]
    unfold penSpec
    rw [if_neg (by omega), if_neg (by omega)]

/-- Witness for the amended C4 at the concrete parameter set `P4w`. -/
theorem C4_witness :
    (1 ≤ P4w.lead_time_years) ∧ (1 ≤ P4w.patent_exclusive_years) ∧
    (P4w.lead_time_years + P4w.patent_exclusive_years + 5 = P4w.n_years) ∧
    (market_penetration expQ P4w).getD P4w.lead_time_years 0 =
      P4w.max_penetration /
        (1 + expQ (P4w.hill_coefficient * P4w.inflection_year)) :=
  ⟨by decide, by decide, by decide,
    (C4_regime_boundaries expQ P4w (by decide) (by decide) (by decide)).2.1⟩

/-- Counterexample to C4 as stated: `P4c` has `lead_time_years = 1 ≥ 1` and
`lead + patent + 5 = n_years`, but its patent-exclusive regime is empty, so
the entry at index `lead_time_years` is `penetration_upon_patent_loss = 0`,
not the logistic value `max_penetration / (1 + exp(hill * inflection)) =
1/2`. -/
theorem C4_counterexample :
    1 ≤ P4c.lead_time_years ∧
    P4c.lead_time_years + P4c.patent_exclusive_years + 5 = P4c.n_years ∧
    (market_penetration expQ P4c).getD P4c.lead_time_years 0 ≠
      P4c.max_penetration /
        (1 + expQ (P4c.hill_coefficient * P4c.inflection_year)) := by
  refine ⟨by decide, by decide, ?_⟩
  norm_num [market_penetration, pre_approval, patent_effective, post_patent,
    P4c, expQ]

/-- Claim C5 (amended): with `max_penetration = 0` **and**
`penetration_upon_patent_loss = 0` (and consistent lengths), the NPV is the
negative sum of discounted non-revenue costs, with no revenue in any year.
The original claim omitted the second condition: `max_penetration` does not
control the post-patent regime, which still generates revenue
(see the counterexample theorem below). -/
theorem C5_zero_penetration (e : ℚ → ℚ) (p : Params)
    (hm : p.max_penetration = 0) (hpl : p.penetration_upon_patent_loss = 0)
    (h1 : p.lead_time_years + p.patent_exclusive_years + 5 = p.n_years)
    (h2 : p.n_years = 30) :
    get_npv e p =
      some (-(∑ i in Finset.range p.n_years,
        nrSpec p i / (1 + p.discount_rate) ^ i)) := by
  rw [npv_formula e p (by omega) h2, h2]
  congr 1
  rw [← Finset.sum_neg_distrib]
  apply Finset.sum_congr rfl
  intro i _
  have hpen : penSpec e p i = 0 := by
    unfold penSpec
    split
    · rfl
    · split
      · rw [hm, zero_div]
      · exact hpl
  unfold netSpec
  rw [hpen]
  ring

/-- Witness for the amended C5 at the concrete parameter set `P5w`. -/
theorem C5_witness :
    P5w.max_penetration = 0 ∧ P5w.penetration_upon_patent_loss = 0 ∧
    get_npv expQ P5w =
      some (-(∑ i in Finset.range P5w.n_years,
        nrSpec P5w i / (1 + P5w.discount_rate) ^ i)) :=
  ⟨by decide, by decide,
    C5_zero_penetration expQ P5w (by decide) (by decide) (by decide) (by decide)⟩

/-- Counterexample to C5 as stated: `P0` has `max_penetration = 0` and a
well-defined computation, but its NPV is `-1`, not the negative sum of
discounted non-revenue costs (`-6`): the post-patent years still generate
revenue because `penetration_upon_patent_loss = 1` is unaffected by
`max_penetration`. -/
theorem C5_counterexample :
    P0.max_penetration = 0 ∧
    get_npv expQ P0 = some (-1) ∧
    -(∑ i in Finset.range P0.n_years,
        (nr_costs P0).getD i 0 / (1 + P0.discount_rate) ^ i) = -6 ∧
    ((-1 : ℚ) ≠ -6) := by
  refine ⟨by decide, ev_P0, ?_, by norm_num⟩
  norm_num [Finset.sum_range_succ, nr_costs, dev_costs, rd_costs,
    rd_costs_baseline, P0]

/-- Claim C6 (amended): with consistent lengths, `cost_of_revenue < 1` and a
**positive discounted patients-treated sum**, increasing `cost_per_unit`
while holding all else fixed strictly increases the NPV.  The original claim
demanded strictness for every parameter set; with zero patients in every
year (e.g. zero population) the NPV is unchanged (see the counterexample theorem below). -/
theorem C6_price_monotonicity (e : ℚ → ℚ) (p : Params) (c2 : ℚ)
    (h1 : p.lead_time_years + p.patent_exclusive_years + 5 = p.n_years)
    (h2 : p.n_years = 30) (hcor : p.cost_of_revenue < 1)
    (hc : p.cost_per_unit < c2)
    (hpos : 0 < ∑ i in Finset.range 30,
      penSpec e p i * fluSpec p i / (1 + p.discount_rate) ^ i) :
    ∀ v1 v2, get_npv e p = some v1 →
      get_npv e { p with cost_per_unit := c2 } = some v2 → v1 < v2 := by
  intro v1 v2 hv1 hv2
  rw [npv_formula e p (by omega) h2] at hv1
  rw [npv_formula e { p with cost_per_unit := c2 }
    (show p.lead_time_years + p.patent_exclusive_years + 5 = 30 by omega) h2] at hv2
  have e1 : v1 = ∑ i in Finset.range 30,
      netSpec e p i / (1 + p.discount_rate) ^ i := (Option.some.inj hv1).symm
  have e2 : v2 = ∑ i in Finset.range 30,
      (penSpec e p i * fluSpec p i * c2 -
        (nrSpec p i + penSpec e p i * fluSpec p i * c2 * p.cost_of_revenue)) /
        (1 + p.discount_rate) ^ i := (Option.some.inj hv2).symm
  have key : v2 - v1 = (c2 - p.cost_per_unit) * (1 - p.cost_of_revenue) *
      ∑ i in Finset.range 30,
        penSpec e p i * fluSpec p i / (1 + p.discount_rate) ^ i := by
    rw [e1, e2, ← Finset.sum_sub_distrib, Finset.mul_sum]
    apply Finset.sum_congr rfl
    intro i _
    unfold netSpec
    ring
  have hgt : 0 < v2 - v1 := by
    rw [key]
    exact mul_pos (mul_pos (sub_pos.2 hc) (sub_pos.2 hcor)) hpos
  linarith

/-- Witness for the amended C6 at the concrete parameter set `P0` and the
higher price 2. -/
theorem C6_witness :
    P0.cost_of_revenue < 1 ∧ P0.cost_per_unit < 2 ∧
    (0 < ∑ i in Finset.range 30,
      penSpec expQ P0 i * fluSpec P0 i / (1 + P0.discount_rate) ^ i) ∧
    ((-1 : ℚ) < 4) :=
  ⟨by norm_num [P0], by norm_num [P0], by rw [ev_P0_patsum]; norm_num,
    C6_price_monotonicity expQ P0 2 (by decide) (by decide) (by norm_num [P0])
      (by norm_num [P0]) (by rw [ev_P0_patsum]; norm_num) (-1) 4 ev_P0 ev_P0_cpu2⟩

/-- Counterexample to C6 as stated: `PA` and `PB` differ only in
`cost_per_unit` (1 vs 2), `cost_of_revenue < 1` and the lengths are
consistent, yet both NPVs are exactly `-6`: with zero population no revenue
is ever generated, so a higher price does not strictly increase the NPV. -/
theorem C6_counterexample :
    PA.cost_of_revenue < 1 ∧ PA.cost_per_unit < PB.cost_per_unit ∧
    get_npv expQ PA = some (-6) ∧ get_npv expQ PB = some (-6) ∧
    ¬((-6 : ℚ) < (-6 : ℚ)) :=
  ⟨by norm_num [PA, P0], by norm_num [PB, PA, P0], ev_PA, ev_PB, by norm_num⟩

/-- Claim C7 (amended): doubling `rd_cost_scaler` (holding everything else
fixed, with consistent lengths) decreases the NPV by exactly the present
value of the **scaled baseline R&D costs**
`∑ i, rd_cost_scaler * rd_costs_baseline[i] / (1 + discount_rate)^i` — not
by the full non-revenue-cost present value, which also contains the
`clindev_sga` overhead that does not scale (see the counterexample theorem below). -/
theorem C7_scaler_doubling (e : ℚ → ℚ) (p : Params)
    (h1 : p.lead_time_years + p.patent_exclusive_years + 5 = p.n_years)
    (h2 : p.n_years = 30) :
    ∀ v, get_npv e p = some v →
      get_npv e { p with rd_cost_scaler := 2 * p.rd_cost_scaler } =
        some (v - ∑ i in Finset.range 30,
          p.rd_cost_scaler * rd_costs_baseline.getD i 0 /
            (1 + p.discount_rate) ^ i) := by
  intro v hv
  rw [npv_formula e p (by omega) h2] at hv
  rw [npv_formula e { p with rd_cost_scaler := 2 * p.rd_cost_scaler }
    (show p.lead_time_years + p.patent_exclusive_years + 5 = 30 by omega) h2]
  congr 1
  rw [← Option.some.inj hv, ← Finset.sum_sub_distrib]
  apply Finset.sum_congr rfl
  intro i _
  have hnr : nrSpec { p with rd_cost_scaler := 2 * p.rd_cost_scaler } i =
      nrSpec p i + p.rd_cost_scaler * rd_costs_baseline.getD i 0 := by
    show (if i < 6 then
        p.clindev_sga + 2 * p.rd_cost_scaler * rd_costs_baseline.getD i 0
      else 0) = nrSpec p i + p.rd_cost_scaler * rd_costs_baseline.getD i 0
    unfold nrSpec
    by_cases hI : i < 6
    · rw [if_pos hI, if_pos hI]
      ring
    · rw [if_neg hI, if_neg hI,
        List.getD_eq_default _ _ (show rd_costs_baseline.length ≤ i from not_lt.mp hI)]
      ring
  show (penSpec e p i * fluSpec p i * p.cost_per_unit -
      (nrSpec { p with rd_cost_scaler := 2 * p.rd_cost_scaler } i +
        penSpec e p i * fluSpec p i * p.cost_per_unit * p.cost_of_revenue)) /
      (1 + p.discount_rate) ^ i = _
  rw [hnr]
  unfold netSpec
  ring

/-- Witness for the amended C7 at the concrete parameter set `PC7`. -/
theorem C7_witness :
    get_npv expQ PC7 = some (-(583 / 10)) ∧
    get_npv expQ { PC7 with rd_cost_scaler := 2 * PC7.rd_cost_scaler } =
      some (-(583 / 10) - ∑ i in Finset.range 30,
        PC7.rd_cost_scaler * rd_costs_baseline.getD i 0 /
          (1 + PC7.discount_rate) ^ i) :=
  ⟨ev_PC7, C7_scaler_doubling expQ PC7 (by decide) (by decide) (-(583 / 10)) ev_PC7⟩

/-- Counterexample to C7 as stated: at `PC7` (zero revenue, zero discount,
`clindev_sga = 1`, `rd_cost_scaler = 1`) the NPV is `-58.3` and the
non-revenue-cost present value is `58.3`, so the claim predicts an NPV of
`-116.6` after doubling the scaler; the code returns `-110.6`, because the
six `clindev_sga` entries inside the non-revenue costs do not scale. -/
theorem C7_counterexample :
    get_npv expQ PC7 = some (-(583 / 10)) ∧
    get_npv expQ { PC7 with rd_cost_scaler := 2 * PC7.rd_cost_scaler } =
      some (-(553 / 5)) ∧
    (∑ i in Finset.range 30,
      (nr_costs PC7).getD i 0 / (1 + PC7.discount_rate) ^ i) = 583 / 10 ∧
    ((-(553 / 5) : ℚ) ≠ -(583 / 10) - 583 / 10) :=
  ⟨ev_PC7, ev_PC7d, ev_PC7_nrpv, by norm_num⟩

/-- Claim C8 (amended): if every undiscounted net income after year 0 is
**nonnegative, with at least one positive** (and lengths are consistent,
`-1 < discount_rate`), then increasing the discount rate strictly decreases
the NPV.  The original claim assumed only a positive *sum* after year 0,
which admits sign-changing cash flows for which the NPV is not monotone in
the discount rate (see the counterexample theorem below). -/
theorem C8_discount_monotonicity (e : ℚ → ℚ) (p : Params) (d2 : ℚ)
    (h1 : p.lead_time_years + p.patent_exclusive_years + 5 = p.n_years)
    (h2 : p.n_years = 30)
    (hd0 : -1 < p.discount_rate) (hd : p.discount_rate < d2)
    (xs : List ℚ) (hxs : net_income e p = some xs)
    (hnn : ∀ i ∈ Finset.Ico 1 30, 0 ≤ xs.getD i 0)
    (hpos : ∃ i ∈ Finset.Ico 1 30, 0 < xs.getD i 0) :
    ∀ v1 v2, get_npv e p = some v1 →
      get_npv e { p with discount_rate := d2 } = some v2 → v2 < v1 := by
  intro v1 v2 hv1 hv2
  rw [net_income_eq e p (by omega) h2] at hxs
  have hxs' : xs = (List.range 30).map (netSpec e p) := Option.some.inj hxs.symm
  rw [npv_formula e p (by omega) h2] at hv1
  rw [npv_formula e { p with discount_rate := d2 }
    (show p.lead_time_years + p.patent_exclusive_years + 5 = 30 by omega) h2] at hv2
  have e1 : v1 = ∑ i in Finset.range 30,
      netSpec e p i / (1 + p.discount_rate) ^ i := (Option.some.inj hv1).symm
  have e2 : v2 = ∑ i in Finset.range 30,
      netSpec e p i / (1 + d2) ^ i := (Option.some.inj hv2).symm
  rw [e1, e2]
  apply Finset.sum_lt_sum
  · intro i hi
    rcases Nat.eq_zero_or_pos i with h0 | h0
    · subst h0
      simp
    · have hx := hnn i (Finset.mem_Ico.mpr ⟨h0, Finset.mem_range.mp hi⟩)
      rw [hxs', getD_map_range _ _ _ (Finset.mem_range.mp hi)] at hx
      exact div_le_div_of_nonneg_left hx (pow_pos (by linarith) i)
        (pow_le_pow_left₀ (by linarith) (by linarith) i)
  · obtain ⟨i, hiIco, hipos⟩ := hpos
    have h1i := (Finset.mem_Ico.mp hiIco).1
    have h30 := (Finset.mem_Ico.mp hiIco).2
    refine ⟨i, Finset.mem_range.mpr h30, ?_⟩
    rw [hxs', getD_map_range _ _ _ h30] at hipos
    exact div_lt_div_of_pos_left hipos (pow_pos (by linarith) i)
      (pow_lt_pow_left₀ (by linarith) (by linarith) (by omega))

/-- Witness for the amended C8 at the concrete parameter set `Pw8` with the
discount rate raised from 0 to 1. -/
theorem C8_witness :
    Pw8.discount_rate < 1 ∧ (-1 : ℚ) < Pw8.discount_rate ∧
    (∃ i ∈ Finset.Ico 1 30,
      0 < ((List.range 30).map (netSpec expQ Pw8)).getD i 0) ∧
    ((31 / 536870912 : ℚ) < 5) := by
  have hnn : ∀ i ∈ Finset.Ico 1 30,
      0 ≤ ((List.range 30).map (netSpec expQ Pw8)).getD i 0 := by
    intro i hi
    rw [getD_map_range _ _ _ (Finset.mem_Ico.mp hi).2, netSpec_Pw8_eq_penSpec]
    exact penSpec_Pw8_nonneg i
  have hpos : ∃ i ∈ Finset.Ico 1 30,
      0 < ((List.range 30).map (netSpec expQ Pw8)).getD i 0 := by
    refine ⟨25, by decide, ?_⟩
    rw [getD_map_range _ _ _ (by omega), netSpec_Pw8_eq_penSpec]
    unfold penSpec
    norm_num [Pw8, P0]
  refine ⟨by norm_num [Pw8, P0], by norm_num [Pw8, P0], hpos, ?_⟩
  exact C8_discount_monotonicity expQ Pw8 1 (by decide) (by decide)
    (by norm_num [Pw8, P0]) (by norm_num [Pw8, P0])
    ((List.range 30).map (netSpec expQ Pw8))
    (net_income_eq expQ Pw8 (by decide) (by decide)) hnn hpos
    5 (31 / 536870912) ev_Pw8 ev_Pw8_d1

/-- Counterexample to C8 as stated: at `Pc8` the net-income sequence is
`[-1 x 6, 0 x 19, 2 x 5]`, whose undiscounted sum after year 0 is `5 > 0`,
and the discount rates 1 < 3 both exceed -1; yet the NPV at rate 3 is
**greater** than at rate 1 (the early losses shrink faster than the late
gains), contradicting the claimed monotone decrease. -/
theorem C8_counterexample :
    (-1 : ℚ) < Pc8.discount_rate ∧ Pc8.discount_rate < 3 ∧
    net_income expQ Pc8 = some ((List.range 30).map (netSpec expQ Pc8)) ∧
    (0 < ∑ i in Finset.Ico 1 30, netSpec expQ Pc8 i) ∧
    get_npv expQ Pc8 = some (-(528482273 / 268435456)) ∧
    get_npv expQ { Pc8 with discount_rate := 3 } =
      some (-(192106671605022379 / 144115188075855872)) ∧
    ((-(528482273 / 268435456) : ℚ) <
      -(192106671605022379 / 144115188075855872)) :=
  ⟨by norm_num [Pc8, P0], by norm_num [Pc8, P0],
    net_income_eq expQ Pc8 (by decide) (by decide), ev_Pc8_icosum,
    ev_Pc8, ev_Pc8_d3, by norm_num⟩

/-- Claim C9: for `hill_coefficient > 0` and `max_penetration ≥ 0`, and for
an exponential that is positive and monotone (as the real `exp` is), the
patent-exclusive segment of the penetration curve is monotonically
nondecreasing in the within-regime index, and when `max_penetration > 0`
every entry lies strictly between 0 and `max_penetration`. -/
theorem C9_scurve_invariants (e : ℚ → ℚ) (hepos : ∀ x, 0 < e x)
    (hemono : Monotone e) (p : Params) (hh : 0 < p.hill_coefficient)
    (hm : 0 ≤ p.max_penetration) :
    (∀ i j : ℕ, i ≤ j → j < p.patent_exclusive_years →
      (patent_effective e p).getD i 0 ≤ (patent_effective e p).getD j 0) ∧
    (0 < p.max_penetration →
      ∀ i : ℕ, i < p.patent_exclusive_years →
        0 < (patent_effective e p).getD i 0 ∧
          (patent_effective e p).getD i 0 < p.max_penetration) := by
  have hval : ∀ i : ℕ, i < p.patent_exclusive_years →
      (patent_effective e p).getD i 0 =
        p.max_penetration /
          (1 + e (-1 * p.hill_coefficient * ((i : ℚ) - p.inflection_year))) := by
    intro i hi
    unfold patent_effective
    exact getD_map_range _ _ _ hi
  constructor
  · intro i j hij hj
    rw [hval i (lt_of_le_of_lt hij hj), hval j hj]
    have hcast : (i : ℚ) ≤ (j : ℚ) := Nat.cast_le.mpr hij
    have hargs : -1 * p.hill_coefficient * ((j : ℚ) - p.inflection_year) ≤
        -1 * p.hill_coefficient * ((i : ℚ) - p.inflection_year) := by
      nlinarith
    have he := hemono hargs
    have hd2 : (0 : ℚ) <
        1 + e (-1 * p.hill_coefficient * ((j : ℚ) - p.inflection_year)) := by
      linarith [hepos (-1 * p.hill_coefficient * ((j : ℚ) - p.inflection_year))]
    exact div_le_div_of_nonneg_left hm hd2 (by linarith)
  · intro hm0 i hi
    rw [hval i hi]
    have hp := hepos (-1 * p.hill_coefficient * ((i : ℚ) - p.inflection_year))
    exact ⟨div_pos hm0 (by linarith), div_lt_self hm0 (by linarith)⟩

/-- Witness for C9 at the concrete parameter set `P9` with the exponential
stand-in `expQ`. -/
theorem C9_witness :
    (0 < P9.hill_coefficient) ∧ Monotone expQ ∧
    (patent_effective expQ P9).getD 0 0 ≤ (patent_effective expQ P9).getD 1 0 ∧
    0 < (patent_effective expQ P9).getD 0 0 :=
  ⟨by norm_num [P9, P0], expQ_mono,
    (C9_scurve_invariants expQ expQ_pos expQ_mono P9 (by norm_num [P9, P0])
      (by norm_num [P9, P0])).1 0 1 (by omega) (by decide),
    ((C9_scurve_invariants expQ expQ_pos expQ_mono P9 (by norm_num [P9, P0])
      (by norm_num [P9, P0])).2 (by norm_num [P9, P0]) 0 (by decide)).1⟩

/-- Claim C10: with `n_years = 1` and every other parameter at its default,
`get_npv` raises no error: the length-1 incidence array broadcasts against
the length-30 penetration array, the final `zip` silently truncates the
30-entry net-income sequence to year 0, and the result is exactly
`-(rd_cost_scaler * 3.515 + clindev_sga) = -4.015` — for any exponential. -/
theorem C10_zip_truncation (e : ℚ → ℚ) :
    get_npv e Pdef1 =
      some (-(Pdef1.rd_cost_scaler * (3.515 : ℚ) + Pdef1.clindev_sga)) ∧
    -(Pdef1.rd_cost_scaler * (3.515 : ℚ) + Pdef1.clindev_sga) = -4.015 := by
  constructor
  · rw [npv_one e Pdef1 (by decide) (by decide)]
    have h0 : (market_penetration e Pdef1).getD 0 0 = 0 := rfl
    rw [h0]
    have hnr : nrSpec Pdef1 0 = 0.5 + 1 * 3.515 := by
      norm_num [nrSpec, rd_costs_baseline, Pdef1, Pdef]
    rw [hnr]
    congr 1
    norm_num [Pdef1, Pdef]
  · norm_num [Pdef1, Pdef]

end NPVModel
